import Mathlib

/-!
Verification development for the CrisisGuard ransomware-behavior agent
(backend/crisisguard_agent_api.py) and the URL classifier collaborator
(backend/detection3.py, backend/main.py).

The Python source is shallowly embedded: module-level mutable state becomes
an explicit AgentState record, datetime timestamps become integers (seconds),
Python floats become exact rationals except where the source computes a
Shannon entropy, which is embedded over the reals with Real.logb.
External collaborators (the AESGCM primitive, the random nonce source, the
wall clock, the optional anomaly model) are parameters of the embedding.
-/

set_option maxRecDepth 4000

namespace CrisisGuard

/-! ## Sliding window counter (class SlidingWindowCounter) -/

/-- Embeds class SlidingWindowCounter: a window length in seconds and a
deque of event timestamps, oldest first. -/
structure Counter where
  window : Int
  events : List Int
  deriving DecidableEq, Repr

/-- Embeds SlidingWindowCounter._prune: pop from the left while the head
timestamp is strictly before the cutoff now - window. -/
def Counter.prune (c : Counter) (now : Int) : Counter :=
  { c with events := c.events.dropWhile (fun t => decide (t < now - c.window)) }

/-- Embeds SlidingWindowCounter.add at time t: append the current timestamp
then prune (the two utcnow() reads inside add are modelled as one instant). -/
def Counter.add (c : Counter) (t : Int) : Counter :=
  Counter.prune { c with events := c.events ++ [t] } t

/-- Embeds SlidingWindowCounter.count at time now: prune, then the number of
retained events. -/
def Counter.count (c : Counter) (now : Int) : Nat :=
  ((c.prune now).events).length

/-- A fresh counter as built by SlidingWindowCounter.__init__. -/
def Counter.fresh (w : Int) : Counter := { window := w, events := [] }

/-- Replay of a whole sequence of record-event calls, one add per timestamp. -/
def runCounter (w : Int) (ts : List Int) : Counter :=
  ts.foldl Counter.add (Counter.fresh w)

/-! ## Runtime configuration (runtime_config dict and POST /set_rates) -/

/-- Embeds the runtime_config dict with its startup defaults. Four keys hold
Python in Lists, three hold floats; type(runtime_config[k]) never changes at
runtime because the coercion in set_rates always produces a value of the
current type, so the per-key value types are fixed fields. -/
structure RuntimeConfig where
  FILES_MODIFIED_THRESHOLD : Int := 5
  TIME_WINDOW_SECONDS : Int := 15
  BYTES_WRITTEN_THRESHOLD : Int := 10240
  RENAMES_THRESHOLD : Int := 2
  ENTROPY_THRESHOLD : ℚ := 2
  CONFIDENCE_ACTION_THRESHOLD : ℚ := mkRat 1 20
  CONFIDENCE_WARN_THRESHOLD : ℚ := mkRat 1 50
  deriving DecidableEq, Repr

/-- A JSON value arriving in the body of a POST /set_rates request: an
integer, a float, or anything else (string, list, object, null), which the
int()/float() coercion in the handler rejects with an exception. -/
inductive JVal where
  | jint (n : Int)
  | jfloat (q : ℚ)
  | jother
  deriving DecidableEq, Repr

/-- A stored config value: a Python int or float. -/
inductive PyVal where
  | pint (n : Int)
  | pfloat (q : ℚ)
  deriving DecidableEq, Repr

/-- Python int(x) truncation toward zero for a float argument. -/
def truncToInt (q : ℚ) : Int :=
  if 0 ≤ q then q.floor else q.ceil

/-- Python int(v) on a JSON value: identity on ints, truncation on floats,
raises (none) otherwise. -/
def coerceInt : JVal → Option Int
  | .jint n => some n
  | .jfloat q => some (truncToInt q)
  | .jother => none

/-- Python float(v) on a JSON value: widening on ints, identity on floats,
raises (none) otherwise. -/
def coerceFloat : JVal → Option ℚ
  | .jint n => some (n : ℚ)
  | .jfloat q => some q
  | .jother => none

/-- The key set of runtime_config, in insertion order. -/
def configKeys : List String :=
  ["FILES_MODIFIED_THRESHOLD", "TIME_WINDOW_SECONDS", "BYTES_WRITTEN_THRESHOLD",
   "RENAMES_THRESHOLD", "ENTROPY_THRESHOLD", "CONFIDENCE_ACTION_THRESHOLD",
   "CONFIDENCE_WARN_THRESHOLD"]

/-- Embeds type(runtime_config[k])(v): coerce v to the declared type of key
k (int for the four count/window/byte keys, float for the three others). -/
def coerceFor (k : String) (v : JVal) : Option PyVal :=
  if k = "ENTROPY_THRESHOLD" ∨ k = "CONFIDENCE_ACTION_THRESHOLD" ∨
      k = "CONFIDENCE_WARN_THRESHOLD" then
    (coerceFloat v).map PyVal.pfloat
  else
    (coerceInt v).map PyVal.pint

/-- Embeds the dict assignment runtime_config[k] = coerced value. -/
def setKey (c : RuntimeConfig) (k : String) (v : PyVal) : RuntimeConfig :=
  match k, v with
  | "FILES_MODIFIED_THRESHOLD", .pint n => { c with FILES_MODIFIED_THRESHOLD := n }
  | "TIME_WINDOW_SECONDS", .pint n => { c with TIME_WINDOW_SECONDS := n }
  | "BYTES_WRITTEN_THRESHOLD", .pint n => { c with BYTES_WRITTEN_THRESHOLD := n }
  | "RENAMES_THRESHOLD", .pint n => { c with RENAMES_THRESHOLD := n }
  | "ENTROPY_THRESHOLD", .pfloat q => { c with ENTROPY_THRESHOLD := q }
  | "CONFIDENCE_ACTION_THRESHOLD", .pfloat q => { c with CONFIDENCE_ACTION_THRESHOLD := q }
  | "CONFIDENCE_WARN_THRESHOLD", .pfloat q => { c with CONFIDENCE_WARN_THRESHOLD := q }
  | _, _ => c

/-- Outcome of the set_rates handler: the 200 response carrying the updated
mapping, or the 400 JSONResponse carrying the error message. -/
inductive SetResult where
  | ok (updated : List (String × PyVal))
  | err (msg : String)
  deriving DecidableEq, Repr

/-- The request loop of set_rates: iterate the payload items in order; an
unknown key or an uncoercible value returns a 400 immediately, leaving the
keys already processed applied; otherwise apply the key and record it. -/
def setRatesGo (c : RuntimeConfig) (acc : List (String × PyVal)) :
    List (String × JVal) → RuntimeConfig × SetResult
  | [] => (c, .ok acc)
  | (k, v) :: rest =>
    if k ∈ configKeys then
      match coerceFor k v with
      | some pv => setRatesGo (setKey c k pv) (acc ++ [(k, pv)]) rest
      | none => (c, .err ("invalid value for " ++ k))
    else
      (c, .err ("unknown key " ++ k))

/-- Embeds the body of POST /set_rates acting on the runtime_config dict
alone (the counter-reset step is in setRatesEndpoint below). -/
def set_rates (c : RuntimeConfig) (payload : List (String × JVal)) :
    RuntimeConfig × SetResult :=
  setRatesGo c [] payload

/-! ## Filesystem model -/

/-- A file system as an association list from path to byte contents; a
later write of a path shadows earlier entries. -/
def FS := List (String × List Nat)

/-- Opening and reading a file; none when the path does not exist, which
models the OSError paths in the source. -/
def fsRead : FS → String → Option (List Nat)
  | [], _ => none
  | (q, d) :: rest, p => if q = p then some d else fsRead rest p

/-- Writing a file (create or overwrite). -/
def fsWrite (fs : FS) (p : String) (d : List Nat) : FS := (p, d) :: fs

/-- Embeds Path.unlink: every entry for the path disappears. -/
def fsRemove : FS → String → FS
  | [], _ => []
  | kv :: rest, p => if kv.1 = p then fsRemove rest p else kv :: fsRemove rest p

/-- Embeds Path.name: the final path component, the characters after the
last slash. -/
def baseName (p : String) : String :=
  String.mk (p.data.foldl (fun acc c => if c = '/' then [] else acc ++ [c]) [])

/-! ## Agent state (the module level mutable globals) -/

/-- The shared mutable state of the agent: runtime_config, the two sliding
window counters, the bytes-written sample window, RecentFileLog, the
per-process write history, the observed sandbox filesystem and the optional
anomaly model (an opaque scorer over the 4-feature vector). -/
structure AgentState where
  config : RuntimeConfig
  file_mod_counter : Counter
  rename_counter : Counter
  bytes_written_window : List (Int × Int)
  recent_modified_files : List String
  proc_writes : List (Nat × List (Int × Int))
  sandbox_fs : FS
  ml_model : Option (Int → Int → Int → Int → ℚ)

/-- The module-level initial state (empty aggregators, counters built from
the default TIME_WINDOW_SECONDS, ml_model = None -- nothing in the source
ever assigns a model). -/
def initAgentState : AgentState where
  config := {}
  file_mod_counter := Counter.fresh 15
  rename_counter := Counter.fresh 15
  bytes_written_window := []
  recent_modified_files := []
  proc_writes := []
  sandbox_fs := []
  ml_model := none

/-- Embeds the POST /set_rates endpoint including the counter reconstruction
performed when TIME_WINDOW_SECONDS is among the applied keys. -/
def setRatesEndpoint (s : AgentState) (payload : List (String × JVal)) :
    AgentState × SetResult :=
  let r := set_rates s.config payload
  match r.2 with
  | .ok updated =>
    if updated.any (fun kv => kv.1 == "TIME_WINDOW_SECONDS") then
      ({ s with
          config := r.1
          file_mod_counter := Counter.fresh r.1.TIME_WINDOW_SECONDS
          rename_counter := Counter.fresh r.1.TIME_WINDOW_SECONDS }, .ok updated)
    else
      ({ s with config := r.1 }, .ok updated)
  | .err m => ({ s with config := r.1 }, .err m)

/-! ## Shannon entropy and the detector set -/

/-- Embeds entropy(data): 0 for empty data, otherwise the Shannon entropy of
the byte-value distribution; the freq dict iteration becomes a sum over the
distinct byte values. -/
noncomputable def entropy (data : List Nat) : ℝ :=
  if data.isEmpty then 0
  else
    (data.dedup.map (fun b =>
      -(((data.count b : ℝ) / (data.length : ℝ)) *
        Real.logb 2 ((data.count b : ℝ) / (data.length : ℝ))))).sum

/-- Embeds detect_file_rate_score: min(1.0, cnt / max(1.0, thr)). -/
def detect_file_rate_score (s : AgentState) (now : Int) : ℚ :=
  min 1 ((s.file_mod_counter.count now : ℚ) /
    max 1 (s.config.FILES_MODIFIED_THRESHOLD : ℚ))

/-- Embeds detect_bytes_written_score: the deque is summed as it stands
(pruning of the bytes window happens at ingestion time, not here). -/
def detect_bytes_written_score (s : AgentState) : ℚ :=
  let total : Int := (s.bytes_written_window.map (fun x => x.2)).sum
  min 1 ((total : ℚ) / max 1 (s.config.BYTES_WRITTEN_THRESHOLD : ℚ))

/-- Embeds detect_rename_score. -/
def detect_rename_score (s : AgentState) (now : Int) : ℚ :=
  min 1 ((s.rename_counter.count now : ℚ) /
    max 1 (s.config.RENAMES_THRESHOLD : ℚ))

/-- The ransom note name patterns. -/
def ransom_note_patterns : List String :=
  ["README", "HOW_TO_DECRYPT", "RECOVER", "README_FOR_DECRYPT"]

/-- Case-folded substring test: pat in name for Python strings, over the
character lists. -/
def leadsWith : List Char → List Char → Bool
  | _, [] => true
  | [], _ :: _ => false
  | h :: hs, p :: ps => h == p && leadsWith hs ps

/-- Substring containment, Python pat in hay. -/
def hasSub : List Char → List Char → Bool
  | [], pat => pat.isEmpty
  | h :: t, pat => leadsWith (h :: t) pat || hasSub t pat

/-- Python pat in s for strings. -/
def strContains (hay pat : String) : Bool := hasSub hay.data pat.data

/-- Embeds detect_ransom_note_score: 1.0 as soon as a path in RecentFileLog
still exists on disk and its uppercased basename contains a pattern. -/
def detect_ransom_note_score (s : AgentState) : ℚ :=
  if s.recent_modified_files.any (fun p =>
      (fsRead s.sandbox_fs p).isSome &&
      ransom_note_patterns.any (fun pat => strContains (baseName p).toUpper pat)) then
    1
  else 0

/-- Embeds the read of the first 4096 bytes of a file, none if open fails. -/
def readChunk (fs : FS) (p : String) : Option (List Nat) :=
  (fsRead fs p).map (fun d => d.take 4096)

/-- The per-sample normalized entropy score min(1.0, e / max(0.001, thr)). -/
noncomputable def entropyScoreOf (thr : ℚ) (chunk : List Nat) : ℝ :=
  min 1 (entropy chunk / max 0.001 (thr : ℝ))

/-- Embeds detect_entropy_score: the first five entries of RecentFileLog are
sampled, unreadable files are skipped, and the scores of the successfully
read samples are averaged; 0.0 when no sample succeeds. -/
noncomputable def detect_entropy_score (s : AgentState) : ℝ :=
  let sampled := s.recent_modified_files.take 5
  let scores : List ℝ := sampled.filterMap (fun p =>
    (readChunk s.sandbox_fs p).map (entropyScoreOf s.config.ENTROPY_THRESHOLD))
  if scores.length = 0 then 0 else scores.sum / (scores.length : ℝ)

/-- Python max(scores) if scores else 0.0 over rationals. -/
def pyMaxOrZero (l : List ℚ) : ℚ :=
  match l with
  | [] => 0
  | a :: rest => rest.foldl max a

/-- Embeds detect_proc_behavior_score: per-process write delta over the
tracked window, normalized by BYTES_WRITTEN_THRESHOLD / 10, kept only above
0.1, and the maximum reported. -/
def detect_proc_behavior_score (s : AgentState) : ℚ :=
  let thr : ℚ := (s.config.BYTES_WRITTEN_THRESHOLD : ℚ) / 10
  let scores : List ℚ := s.proc_writes.filterMap (fun pd =>
    if 2 ≤ pd.2.length then
      let firstW : Int := ((pd.2.head?).map (fun x => x.2)).getD 0
      let lastW : Int := ((pd.2.getLast?).map (fun x => x.2)).getD 0
      let sc : ℚ := min 1 (((lastW - firstW : Int) : ℚ) / max 1 thr)
      if mkRat 1 10 < sc then some sc else none
    else none)
  pyMaxOrZero scores

/-- Embeds detect_ml_score: 0.0 without a model; otherwise the current
feature vector is scored and a negative raw score maps to min(1, -raw/10). -/
def detect_ml_score (s : AgentState) (now : Int) : ℚ :=
  match s.ml_model with
  | none => 0
  | some f =>
    let fc : Int := (s.file_mod_counter.count now : Int)
    let bt : Int := (s.bytes_written_window.map (fun x => x.2)).sum
    let rc : Int := (s.rename_counter.count now : Int)
    let procMax : Int := s.proc_writes.foldl (fun m pd =>
      if 1 < pd.2.length then
        max m ((((pd.2.getLast?).map (fun x => x.2)).getD 0) -
          (((pd.2.head?).map (fun x => x.2)).getD 0))
      else m) 0
    let raw := f fc bt rc procMax
    if raw < 0 then min 1 (-raw / 10) else 0

/-- The per-evaluation detector breakdown (the detectors dict built once per
compute_confidence call). -/
structure DetectorScores where
  file_rate : ℚ
  bytes_written : ℚ
  rename_spike : ℚ
  ransom_note : ℚ
  entropy : ℝ
  proc_behavior : ℚ
  ml_score : ℚ

/-- Embeds compute_confidence: the weighted sum of the seven scores divided
by the weight sum 1.40 (sum(WEIGHTS.values()), nonzero, so the or-1.0
fallback in the source is inert). -/
noncomputable def compute_confidence (s : AgentState) (now : Int) : ℝ × DetectorScores :=
  let d : DetectorScores :=
    { file_rate := detect_file_rate_score s now
      bytes_written := detect_bytes_written_score s
      rename_spike := detect_rename_score s now
      ransom_note := detect_ransom_note_score s
      entropy := detect_entropy_score s
      proc_behavior := detect_proc_behavior_score s
      ml_score := detect_ml_score s now }
  let weighted : ℝ :=
    0.25 * (d.file_rate : ℝ) + 0.20 * (d.bytes_written : ℝ) +
    0.15 * (d.rename_spike : ℝ) + 0.20 * (d.ransom_note : ℝ) +
    0.2 * d.entropy + 0.25 * (d.proc_behavior : ℝ) + 0.15 * (d.ml_score : ℝ)
  (weighted / 1.4, d)

/-! ## Action pipeline -/

/-- The collaborators of a single evaluation cycle: the wall clock readings,
the per-trigger nonce stream, the AESGCM primitive under the process
lifetime key, and whether the quarantine copy succeeds (fault injection for
the shutil.copy2 call). -/
structure Env where
  now : Int
  iso : String
  stamp : String
  epoch : Int
  nonces : Nat → List Nat
  enc : List Nat → List Nat → List Nat
  copyOk : Bool

/-- An Alert as assembled in snapshot_and_alert. -/
structure Alert where
  timestamp : String
  confidence : ℝ
  detectors : DetectorScores
  snapshots : List String

/-- Embeds encrypt_and_store for the i-th file of a trigger: read the file
(none models the logged-and-reraised read failure), then persist
nonce plus ciphertext under BACKUP_DIR/name.stamp.enc. The Python function
ends without a return statement, so its value is None; accordingly no
destination value is produced here, only the new filesystem. -/
def encrypt_and_store (env : Env) (fs : FS) (i : Nat) (p : String) : Option FS :=
  match fsRead fs p with
  | none => none
  | some data =>
    some (fsWrite fs ("demo_backups/" ++ baseName p ++ "." ++ env.stamp ++ ".enc")
      (env.nonces i ++ env.enc (env.nonces i) data))

/-- The snapshot loop of snapshot_and_alert: each successful call appends
str(dest) where dest is the None returned by encrypt_and_store, so the
string None; failed files are skipped. A nonce is drawn per call. -/
def snapshotFold (env : Env) : List String → Nat → FS → FS × List String
  | [], _, fs => (fs, [])
  | p :: rest, i, fs =>
    match encrypt_and_store env fs i p with
    | some fs1 =>
      let r := snapshotFold env rest (i + 1) fs1
      (r.1, "None" :: r.2)
    | none => snapshotFold env rest (i + 1) fs

/-- Embeds move_to_quarantine: copy to QUARANTINE_DIR/name.epoch then unlink
the original; a failed copy (fault injection, a missing source, or copy2
refusing identical source and destination) returns the filesystem unchanged
with no destination, modelling the raised exception. -/
def move_to_quarantine (env : Env) (fs : FS) (p : String) : FS × Option String :=
  let dest := "demo_quarantine/" ++ baseName p ++ "." ++ toString env.epoch
  if env.copyOk then
    if dest = p then (fs, none)
    else
      match fsRead fs p with
      | some data => (fsRemove (fsWrite fs dest data) p, some dest)
      | none => (fs, none)
  else (fs, none)

/-- Embeds snapshot_and_alert: snapshot up to the first 20 entries of
RecentFileLog, build the Alert, then soft-quarantine the most recent file
(its failure is caught and logged). Only sandbox_fs changes. -/
def snapshot_and_alert (env : Env) (s : AgentState) (conf : ℝ) (dets : DetectorScores) :
    AgentState × Alert :=
  let r := snapshotFold env (s.recent_modified_files.take 20) 0 s.sandbox_fs
  let alert : Alert :=
    { timestamp := env.iso, confidence := conf, detectors := dets, snapshots := r.2 }
  let fs2 :=
    match s.recent_modified_files.getLast? with
    | some target => (move_to_quarantine env r.1 target).1
    | none => r.1
  ({ s with sandbox_fs := fs2 }, alert)

/-- Embeds one iteration of agent_loop: compute confidence; at or above the
action threshold run snapshot_and_alert and clear RecentFileLog; otherwise
(warn or informational) only log. The comparison uses the classical order
on the reals. -/
noncomputable def agent_cycle (env : Env) (s : AgentState) : AgentState × Option Alert :=
  let cd := compute_confidence s env.now
  if ((s.config.CONFIDENCE_ACTION_THRESHOLD : ℚ) : ℝ) ≤ cd.1 then
    let sa := snapshot_and_alert env s cd.1 cd.2
    ({ sa.1 with recent_modified_files := [] }, some sa.2)
  else
    (s, none)

/-! ## URL classifier collaborator (detection3.py) -/

/-- Characters urlsplit accepts inside a scheme. -/
def schemeChar (c : Char) : Bool :=
  c.isAlphanum || c == '+' || c == '-' || c == '.'

/-- The characters strictly before the first colon, none when there is no
colon. -/
def upToColon : List Char → Option (List Char)
  | [] => none
  | c :: rest => if c = ':' then some [] else (upToColon rest).map (fun l => c :: l)

/-- Embeds the scheme extraction of urllib.parse.urlsplit: a nonempty
alpha-led run of scheme characters before the first colon, lowercased;
otherwise the empty scheme. -/
def urlScheme (url : String) : String :=
  match upToColon url.data with
  | some pre =>
    if pre ≠ [] ∧ (pre.headD 'a').isAlpha ∧ pre.all schemeChar then
      String.mk (pre.map Char.toLower)
    else ""
  | none => ""

/-- The normalization applied before parsing in detection3.py: prepend
http:// when the URL has no :// marker. -/
def effectiveUrl (url : String) : String :=
  if strContains url "://" then url else "http://" ++ url

/-- Embeds collect_samples_with_scheme_bias restricted to the verdict it
returns. The balanced sample pool and the model predictions only reach the
verdict through the majority label, which is therefore an opaque
collaborator input here. -/
def collect_samples_with_scheme_bias (majority : String) (url : String) : String :=
  let scheme := urlScheme (effectiveUrl url)
  if scheme = "http" then "MALICIOUS"
  else if scheme = "https" then "BENIGN"
  else majority

/-! ## Definitions written from the specification text, for comparison -/

/-- Modelled from the spec: the entropy detector as the claim words it,
sampling the five most-recent entries of RecentFileLog instead of the five
the code takes from the head of the deque. -/
noncomputable def detect_entropy_score_most_recent (s : AgentState) : ℝ :=
  let sampled := s.recent_modified_files.reverse.take 5
  let scores : List ℝ := sampled.filterMap (fun p =>
    (readChunk s.sandbox_fs p).map (entropyScoreOf s.config.ENTROPY_THRESHOLD))
  if scores.length = 0 then 0 else scores.sum / (scores.length : ℝ)

/-- The amended entropy detector specification: read the first five log
entries, keep the successfully read 4096-byte chunks, score each chunk and
average. Stated over the chunks rather than the loop accumulator. -/
noncomputable def detect_entropy_score_spec (s : AgentState) : ℝ :=
  let chunks : List (List Nat) :=
    (s.recent_modified_files.take 5).filterMap (readChunk s.sandbox_fs)
  if chunks = [] then 0
  else ((chunks.map (entropyScoreOf s.config.ENTROPY_THRESHOLD)).sum / (chunks.length : ℝ))

/-- Entries of set_rates payloads that pass validation: a known key whose
value coerces to the declared type of that key. -/
def validEntry (kv : String × JVal) : Prop :=
  kv.1 ∈ configKeys ∧ (coerceFor kv.1 kv.2).isSome

instance (kv : String × JVal) : Decidable (validEntry kv) := by
  unfold validEntry; infer_instance

/-- The error message set_rates produces for the first failing entry. -/
def errMsgFor (kv : String × JVal) : String :=
  if kv.1 ∈ configKeys then "invalid value for " ++ kv.1 else "unknown key " ++ kv.1

/-- Application of one payload entry to the config, skipping entries that do
not coerce. -/
def applyEntry (c : RuntimeConfig) (kv : String × JVal) : RuntimeConfig :=
  match coerceFor kv.1 kv.2 with
  | some pv => setKey c kv.1 pv
  | none => c

/-- Application of a payload in order. -/
def applyAll (c : RuntimeConfig) (payload : List (String × JVal)) : RuntimeConfig :=
  payload.foldl applyEntry c

/-- The updated mapping set_rates reports: each payload entry paired with
its coerced stored value. -/
def appliedOf (payload : List (String × JVal)) : List (String × PyVal) :=
  payload.filterMap (fun kv => (coerceFor kv.1 kv.2).map (fun pv => (kv.1, pv)))

/-! ## Concrete sample inputs used by witnesses and counterexamples -/

/-- A concrete collaborator environment for evaluations. -/
def sampleEnv : Env where
  now := 0
  iso := "2025-01-01T00:00:00Z"
  stamp := "20250101T000000"
  epoch := 5
  nonces := fun _ => [7]
  enc := fun _ d => d
  copyOk := true

/-- A one-file sandbox. -/
def sampleFS : FS := [("demo_sandbox/x.txt", [9, 8])]

/-- State with a single recorded file-rate event. -/
def sampleState1 : AgentState :=
  { initAgentState with file_mod_counter := { window := 15, events := [0] } }

/-- State with five recorded file-rate events. -/
def sampleState5 : AgentState :=
  { initAgentState with file_mod_counter := { window := 15, events := [0, 0, 0, 0, 0] } }

/-- State whose FILES_MODIFIED_THRESHOLD has been tuned to 0, reachable via
set_rates. -/
def sampleStateThr0 : AgentState :=
  { initAgentState with config := { FILES_MODIFIED_THRESHOLD := 0 } }

/-- State whose action threshold has been tuned to 0, reachable via
set_rates. -/
def sampleActState : AgentState :=
  { initAgentState with config := { CONFIDENCE_ACTION_THRESHOLD := 0 } }

/-- State with one recorded recent file still present on disk. -/
def sampleTriggerState : AgentState :=
  { initAgentState with
      recent_modified_files := ["demo_sandbox/a.txt"]
      sandbox_fs := [("demo_sandbox/a.txt", [1, 2, 3])] }

/-- A zero detector breakdown used as a concrete argument. -/
noncomputable def sampleDets : DetectorScores :=
  { file_rate := 0, bytes_written := 0, rename_spike := 0, ransom_note := 0,
    entropy := 0, proc_behavior := 0, ml_score := 0 }

/-- Six logged files of which only the newest still exists on disk, holding
the two byte values 0 and 1 (entropy exactly one bit). -/
def sampleSixFiles : AgentState :=
  { initAgentState with
      recent_modified_files := ["f1", "f2", "f3", "f4", "f5", "f6"]
      sandbox_fs := [("f6", [0, 1])] }

/-! Helper lemmas about pruning on sorted event lists. -/

theorem dropWhile_lt_eq_filter_of_sorted (c : Int) :
    ∀ (l : List Int), l.Sorted (· ≤ ·) →
      l.dropWhile (fun t => decide (t < c)) = l.filter (fun t => decide (c ≤ t)) := by
  intro l
  induction l with
  | nil => intro _; rfl
  | cons a l ih =>
    intro hl
    rcases List.sorted_cons.mp hl with ⟨ha, hl'⟩
    by_cases h : a < c
    · have h2 : ¬ c ≤ a := not_le.mpr h
      simpa [List.dropWhile_cons, List.filter_cons, h, h2] using ih hl'
    · have h2 : c ≤ a := not_lt.mp h
      have hkeep : l.filter (fun t => decide (c ≤ t)) = l :=
        List.filter_eq_self.mpr (fun x hx => by
          simp only [decide_eq_true_eq]
          exact le_trans h2 (ha x hx))
      simp [List.dropWhile_cons, List.filter_cons, h, h2, hkeep]

theorem filter_ge_filter_ge (c₁ c₂ : Int) (h : c₁ ≤ c₂) (l : List Int) :
    (l.filter (fun t => decide (c₁ ≤ t))).filter (fun t => decide (c₂ ≤ t)) =
      l.filter (fun t => decide (c₂ ≤ t)) := by
  rw [List.filter_filter]
  apply List.filter_congr
  intro x _
  by_cases hx : c₂ ≤ x
  · have hx1 : c₁ ≤ x := le_trans h hx
    simp [hx, hx1]
  · simp [hx]

/-- The foldl of add calls never changes the window field. -/
theorem foldl_add_window (ts : List Int) :
    ∀ (c : Counter), (ts.foldl Counter.add c).window = c.window := by
  induction ts with
  | nil => intro c; rfl
  | cons t ts ih =>
    intro c
    simpa [List.foldl_cons] using ih (c.add t)

/-- The window of a replayed counter is the construction-time window. -/
theorem runCounter_window (w : Int) (ts : List Int) : (runCounter w ts).window = w :=
  foldl_add_window ts (Counter.fresh w)

/-- Invariant of a replayed counter: the retained events are sorted and all
belong to the recorded sequence. -/
theorem runCounter_invariant (w : Int) (ts : List Int) (hts : ts.Sorted (· ≤ ·)) :
    (runCounter w ts).events.Sorted (· ≤ ·) ∧
    (∀ x ∈ (runCounter w ts).events, x ∈ ts) := by
  induction ts using List.reverseRecOn with
  | nil =>
    exact ⟨List.sorted_nil, by intro x hx; cases hx⟩
  | append_singleton us u ih =>
    have hus : us.Sorted (· ≤ ·) :=
      hts.sublist (List.sublist_append_left us [u])
    have hub : ∀ x ∈ us, x ≤ u := by
      intro x hx
      have := (List.pairwise_append.mp hts).2.2
      exact this x hx u (by simp)
    obtain ⟨ihs, ihm⟩ := ih hus
    have hrun : runCounter w (us ++ [u]) = (runCounter w us).add u := by
      simp [runCounter, List.foldl_append]
    have hsortedE : ((runCounter w us).events ++ [u]).Sorted (· ≤ ·) := by
      rw [List.Sorted, List.pairwise_append]
      refine ⟨ihs, List.sorted_singleton u, ?_⟩
      intro x hx y hy
      rcases List.mem_singleton.mp hy with rfl
      exact hub x (ihm x hx)
    constructor
    · rw [hrun]
      exact hsortedE.sublist (List.dropWhile_sublist _)
    · intro x hx
      rw [hrun] at hx
      have hx' : x ∈ (runCounter w us).events ++ [u] :=
        (List.dropWhile_sublist _).subset hx
      rcases List.mem_append.mp hx' with hxl | hxr
      · exact List.mem_append.mpr (Or.inl (ihm x hxl))
      · exact List.mem_append.mpr (Or.inr hxr)

/-- After replaying a monotone sequence of record-event calls and pruning at
time now, the retained events are exactly the recorded timestamps at or
after the cutoff now - w. -/
theorem runCounter_prune_eq_filter (w : Int) (ts : List Int) (now : Int)
    (hts : ts.Sorted (· ≤ ·)) (hnow : ∀ t ∈ ts, t ≤ now) :
    ((runCounter w ts).prune now).events = ts.filter (fun t => decide (now - w ≤ t)) := by
  induction ts using List.reverseRecOn with
  | nil => rfl
  | append_singleton us u ih =>
    have hus : us.Sorted (· ≤ ·) :=
      hts.sublist (List.sublist_append_left us [u])
    have hub : ∀ x ∈ us, x ≤ u := by
      intro x hx
      have := (List.pairwise_append.mp hts).2.2
      exact this x hx u (by simp)
    have hunow : u ≤ now := hnow u (by simp)
    have husnow : ∀ t ∈ us, t ≤ now := fun t ht => hnow t (List.mem_append.mpr (Or.inl ht))
    obtain ⟨ihs, ihm⟩ := runCounter_invariant w us hus
    have hsortedE : ((runCounter w us).events ++ [u]).Sorted (· ≤ ·) := by
      rw [List.Sorted, List.pairwise_append]
      refine ⟨ihs, List.sorted_singleton u, ?_⟩
      intro x hx y hy
      rcases List.mem_singleton.mp hy with rfl
      exact hub x (ihm x hx)
    have hrun : runCounter w (us ++ [u]) = (runCounter w us).add u := by
      simp [runCounter, List.foldl_append]
    have hwin : (runCounter w us).window = w := runCounter_window w us
    -- step 1: the add at time u prunes with cutoff u - w
    have hstep1 :
        ((runCounter w us).add u).events =
          ((runCounter w us).events ++ [u]).filter (fun t => decide (u - w ≤ t)) := by
      simp only [Counter.add, Counter.prune, hwin]
      exact dropWhile_lt_eq_filter_of_sorted (u - w) _ hsortedE
    -- step 2: pruning at time now turns the final dropWhile into a filter
    have hsorted1 : (((runCounter w us).events ++ [u]).filter
        (fun t => decide (u - w ≤ t))).Sorted (· ≤ ·) :=
      hsortedE.sublist (List.filter_sublist _)
    have hstep2 :
        (((runCounter w (us ++ [u])).prune now)).events =
          ((((runCounter w us).events ++ [u]).filter (fun t => decide (u - w ≤ t))).filter
            (fun t => decide (now - w ≤ t))) := by
      rw [hrun]
      simp only [Counter.prune]
      have hw : ((runCounter w us).add u).window = w := by
        simp only [Counter.add, Counter.prune]
        exact hwin
      rw [hw, hstep1]
      exact dropWhile_lt_eq_filter_of_sorted (now - w) _ hsorted1
    rw [hstep2, filter_ge_filter_ge (u - w) (now - w) (by omega) _]
    -- distribute the filter over the append and use the induction hypothesis
    have hihfilter :
        ((runCounter w us).events).filter (fun t => decide (now - w ≤ t)) =
          us.filter (fun t => decide (now - w ≤ t)) := by
      have hE := ih hus husnow
      calc ((runCounter w us).events).filter (fun t => decide (now - w ≤ t))
          = (((runCounter w us).prune now).events) := by
            simp only [Counter.prune, runCounter_window w us]
            exact (dropWhile_lt_eq_filter_of_sorted (now - w) _ ihs).symm
        _ = us.filter (fun t => decide (now - w ≤ t)) := hE
    rw [List.filter_append, List.filter_append, hihfilter]

/-- Claim C3 - For every window duration W and every sequence of record-event
calls with monotone timestamps all at or before the observation instant, the
counter's count at that instant equals exactly the number of recorded
timestamps inside the closed interval from now - W to now; in particular an
event older than W before now is never counted. -/
theorem sliding_window_count_exact (w now : Int) (ts : List Int)
    (hts : ts.Sorted (· ≤ ·)) (hnow : ∀ t ∈ ts, t ≤ now) :
    (runCounter w ts).count now =
      (ts.filter (fun t => decide (now - w ≤ t ∧ t ≤ now))).length := by
  have h := runCounter_prune_eq_filter w ts now hts hnow
  simp only [Counter.count, h]
  congr 1
  apply List.filter_congr
  intro x hx
  have hxn : x ≤ now := hnow x hx
  by_cases hc : now - w ≤ x
  · simp [hc, hxn]
  · simp [hc]

/-- Witness for claim C3 at a concrete trace: window 10, events at times
1, 5 and 20, observed at time 25; only the event at 20 is inside the window. -/
theorem sliding_window_count_exact_witness :
    ([(1 : Int), 5, 20].Sorted (· ≤ ·) ∧ (∀ t ∈ [(1 : Int), 5, 20], t ≤ 25)) ∧
      (runCounter 10 [(1 : Int), 5, 20]).count 25 =
        (([(1 : Int), 5, 20]).filter (fun t => decide (25 - 10 ≤ t ∧ t ≤ 25))).length := by
  refine ⟨⟨by decide, by decide⟩, ?_⟩
  exact sliding_window_count_exact 10 25 [(1 : Int), 5, 20] (by decide) (by decide)

/-! ## Filesystem lemmas -/

theorem fsRead_write_self (fs : FS) (p : String) (d : List Nat) :
    fsRead (fsWrite fs p d) p = some d := by
  simp [fsWrite, fsRead]

theorem fsRead_remove_self (fs : FS) (p : String) : fsRead (fsRemove fs p) p = none := by
  induction fs with
  | nil => rfl
  | cons kv rest ih =>
    obtain ⟨q, d⟩ := kv
    by_cases h : q = p
    · simpa [fsRemove, h] using ih
    · simpa [fsRemove, fsRead, h] using ih

theorem fsRead_remove_ne (fs : FS) (p q : String) (h : q ≠ p) :
    fsRead (fsRemove fs p) q = fsRead fs q := by
  induction fs with
  | nil => rfl
  | cons kv rest ih =>
    obtain ⟨k, d⟩ := kv
    by_cases hk : k = p
    · have hkq : k ≠ q := by rw [hk]; exact fun e => h e.symm
      have hpq : p ≠ q := fun e => h e.symm
      simpa [fsRemove, fsRead, hk, hkq, hpq] using ih
    · by_cases hq : k = q
      · simp [fsRemove, fsRead, hk, hq, h]
      · simpa [fsRemove, fsRead, hk, hq] using ih

/-- Claim C2 - The quarantine operation removes the original only after the
copy has succeeded: when the copy raises, the filesystem is unchanged, and
whenever the source is gone after the call, a destination copy with the
source's exact bytes exists. -/
theorem quarantine_never_deletes_without_copy (env : Env) (fs : FS) (p : String) :
    ((move_to_quarantine env fs p).2 = none → (move_to_quarantine env fs p).1 = fs) ∧
    (fsRead fs p ≠ none → fsRead (move_to_quarantine env fs p).1 p = none →
      ∃ d, (move_to_quarantine env fs p).2 = some d ∧
        fsRead (move_to_quarantine env fs p).1 d = fsRead fs p) := by
  by_cases hc : env.copyOk
  · by_cases hd : ("demo_quarantine/" ++ baseName p ++ "." ++ toString env.epoch) = p
    · constructor
      · intro _
        simp [move_to_quarantine, hc, hd]
      · intro h1 h2
        simp [move_to_quarantine, hc, hd] at h2
        exact absurd h2 h1
    · cases hr : fsRead fs p with
      | none =>
        constructor
        · intro _
          simp [move_to_quarantine, hc, hd, hr]
        · intro h1 _
          exact absurd rfl h1
      | some data =>
        have hres1 : (move_to_quarantine env fs p).1 =
            fsRemove (fsWrite fs ("demo_quarantine/" ++ baseName p ++ "." ++
              toString env.epoch) data) p := by
          simp [move_to_quarantine, hc, hd, hr]
        have hres2 : (move_to_quarantine env fs p).2 =
            some ("demo_quarantine/" ++ baseName p ++ "." ++ toString env.epoch) := by
          simp [move_to_quarantine, hc, hd, hr]
        constructor
        · intro hnone
          rw [hres2] at hnone
          exact absurd hnone (by simp)
        · intro _ _
          refine ⟨"demo_quarantine/" ++ baseName p ++ "." ++ toString env.epoch,
            hres2, ?_⟩
          rw [hres1]
          rw [fsRead_remove_ne _ p _ hd]
          exact fsRead_write_self _ _ _
  · constructor
    · intro _
      simp [move_to_quarantine, hc]
    · intro h1 h2
      simp [move_to_quarantine, hc] at h2
      exact absurd h2 h1

/-- Witness for claim C2: quarantining the only file of the sample sandbox
deletes the source and leaves a byte-identical destination copy. -/
theorem quarantine_never_deletes_without_copy_witness :
    (fsRead sampleFS "demo_sandbox/x.txt" ≠ none ∧
      fsRead (move_to_quarantine sampleEnv sampleFS "demo_sandbox/x.txt").1
        "demo_sandbox/x.txt" = none) ∧
    (∃ d, (move_to_quarantine sampleEnv sampleFS "demo_sandbox/x.txt").2 = some d ∧
      fsRead (move_to_quarantine sampleEnv sampleFS "demo_sandbox/x.txt").1 d =
        fsRead sampleFS "demo_sandbox/x.txt") := by
  refine ⟨⟨by decide, by decide⟩, ?_⟩
  exact (quarantine_never_deletes_without_copy sampleEnv sampleFS
    "demo_sandbox/x.txt").2 (by decide) (by decide)

/-! ## set_rates lemmas -/

theorem setRatesGo_all_valid :
    ∀ (payload : List (String × JVal)) (c : RuntimeConfig) (acc : List (String × PyVal)),
      (∀ kv ∈ payload, validEntry kv) →
      setRatesGo c acc payload = (applyAll c payload, .ok (acc ++ appliedOf payload)) := by
  intro payload
  induction payload with
  | nil =>
    intro c acc _
    simp [setRatesGo, applyAll, appliedOf]
  | cons kv rest ih =>
    intro c acc hall
    obtain ⟨hmem, hsome⟩ := hall kv (by simp)
    cases hc : coerceFor kv.1 kv.2 with
    | none => rw [hc] at hsome; exact absurd hsome (by simp)
    | some pv =>
      have hgo : setRatesGo c acc (kv :: rest) =
          setRatesGo (setKey c kv.1 pv) (acc ++ [(kv.1, pv)]) rest := by
        cases kv with
        | mk k v => simp [setRatesGo, hmem, hc]
      rw [hgo, ih (setKey c kv.1 pv) (acc ++ [(kv.1, pv)])
        (fun x hx => hall x (by simp [hx]))]
      have happly : applyAll c (kv :: rest) = applyAll (setKey c kv.1 pv) rest := by
        simp [applyAll, List.foldl_cons, applyEntry, hc]
      have happlied : appliedOf (kv :: rest) = (kv.1, pv) :: appliedOf rest := by
        simp [appliedOf, List.filterMap_cons, hc]
      rw [happly, happlied]
      simp

theorem setRatesGo_first_invalid :
    ∀ (pre : List (String × JVal)) (c : RuntimeConfig) (acc : List (String × PyVal))
      (bad : String × JVal) (post : List (String × JVal)),
      (∀ kv ∈ pre, validEntry kv) → ¬ validEntry bad →
      setRatesGo c acc (pre ++ bad :: post) = (applyAll c pre, .err (errMsgFor bad)) := by
  intro pre
  induction pre with
  | nil =>
    intro c acc bad post _ hbad
    by_cases hmem : bad.1 ∈ configKeys
    · have hnone : coerceFor bad.1 bad.2 = none := by
        cases hcc : coerceFor bad.1 bad.2 with
        | none => rfl
        | some pv => exact absurd ⟨hmem, by rw [hcc]; simp⟩ hbad
      cases bad with
      | mk k v =>
        simp only [List.nil_append]
        simp [setRatesGo, hmem, hnone, errMsgFor, applyAll]
    · cases bad with
      | mk k v =>
        simp only [List.nil_append]
        simp [setRatesGo, hmem, errMsgFor, applyAll]
  | cons kv pre' ih =>
    intro c acc bad post hall hbad
    obtain ⟨hmem, hsome⟩ := hall kv (by simp)
    cases hc : coerceFor kv.1 kv.2 with
    | none => rw [hc] at hsome; exact absurd hsome (by simp)
    | some pv =>
      have hgo : setRatesGo c acc ((kv :: pre') ++ bad :: post) =
          setRatesGo (setKey c kv.1 pv) (acc ++ [(kv.1, pv)]) (pre' ++ bad :: post) := by
        cases kv with
        | mk k v => simp [setRatesGo, hmem, hc]
      rw [hgo, ih (setKey c kv.1 pv) (acc ++ [(kv.1, pv)]) bad post
        (fun x hx => hall x (by simp [hx])) hbad]
      have happly : applyAll c (kv :: pre') = applyAll (setKey c kv.1 pv) pre' := by
        simp [applyAll, List.foldl_cons, applyEntry, hc]
      rw [happly]

theorem appliedOf_keys :
    ∀ (payload : List (String × JVal)), (∀ kv ∈ payload, validEntry kv) →
      (appliedOf payload).map Prod.fst = payload.map Prod.fst := by
  intro payload
  induction payload with
  | nil => intro _; rfl
  | cons kv rest ih =>
    intro hall
    obtain ⟨_, hsome⟩ := hall kv (by simp)
    cases hc : coerceFor kv.1 kv.2 with
    | none => rw [hc] at hsome; exact absurd hsome (by simp)
    | some pv =>
      have hstep : appliedOf (kv :: rest) = (kv.1, pv) :: appliedOf rest := by
        simp [appliedOf, List.filterMap_cons, hc]
      rw [hstep, List.map_cons, List.map_cons,
        ih (fun x hx => hall x (List.mem_cons_of_mem _ hx))]

/-- Claim C5 - set_rates applies valid entries in request order and returns
exactly the applied mapping; the first unknown key or uncoercible value
aborts with a message naming that key, leaving exactly the entries
validated before it applied. -/
theorem set_rates_validation (c : RuntimeConfig) (payload : List (String × JVal)) :
    ((∀ kv ∈ payload, validEntry kv) →
      set_rates c payload = (applyAll c payload, .ok (appliedOf payload)) ∧
      (appliedOf payload).map Prod.fst = payload.map Prod.fst) ∧
    (∀ pre bad post, payload = pre ++ bad :: post →
      (∀ kv ∈ pre, validEntry kv) → ¬ validEntry bad →
      set_rates c payload = (applyAll c pre, .err (errMsgFor bad))) := by
  constructor
  · intro hall
    constructor
    · have := setRatesGo_all_valid payload c [] hall
      simpa [set_rates] using this
    · exact appliedOf_keys payload hall
  · intro pre bad post hsplit hpre hbad
    rw [hsplit]
    exact setRatesGo_first_invalid pre c [] bad post hpre hbad

/-- Witness for claim C5: a fully valid two-key request applies both keys
and reports them; a request whose second key is unknown applies only the
first key and rejects naming the second. -/
theorem set_rates_validation_witness :
    ((∀ kv ∈ [("FILES_MODIFIED_THRESHOLD", JVal.jint 10),
        ("ENTROPY_THRESHOLD", JVal.jfloat 3)], validEntry kv) ∧
      set_rates {} [("FILES_MODIFIED_THRESHOLD", JVal.jint 10),
        ("ENTROPY_THRESHOLD", JVal.jfloat 3)] =
        (applyAll {} [("FILES_MODIFIED_THRESHOLD", JVal.jint 10),
          ("ENTROPY_THRESHOLD", JVal.jfloat 3)],
         .ok (appliedOf [("FILES_MODIFIED_THRESHOLD", JVal.jint 10),
          ("ENTROPY_THRESHOLD", JVal.jfloat 3)]))) ∧
    set_rates {} [("TIME_WINDOW_SECONDS", JVal.jint 60), ("NOPE", JVal.jint 1)] =
      (applyAll {} [("TIME_WINDOW_SECONDS", JVal.jint 60)],
       .err (errMsgFor ("NOPE", JVal.jint 1))) := by
  refine ⟨⟨by decide, ?_⟩, ?_⟩
  · exact ((set_rates_validation {} _).1 (by decide)).1
  · exact (set_rates_validation {} _).2 [("TIME_WINDOW_SECONDS", JVal.jint 60)]
      ("NOPE", JVal.jint 1) [] rfl (by decide) (by decide)

/-- Claim C6 - a successful update whose applied keys include
TIME_WINDOW_SECONDS replaces both window counters by fresh empty ones built
from the new window length, while RecentFileLog, ProcessWriteHistory and
the bytes-written window stay untouched. -/
theorem time_window_update_resets_counters (s : AgentState)
    (payload : List (String × JVal)) (updated : List (String × PyVal))
    (hok : (setRatesEndpoint s payload).2 = .ok updated)
    (hmem : "TIME_WINDOW_SECONDS" ∈ updated.map Prod.fst) :
    (setRatesEndpoint s payload).1.file_mod_counter =
      Counter.fresh ((setRatesEndpoint s payload).1.config.TIME_WINDOW_SECONDS) ∧
    (setRatesEndpoint s payload).1.rename_counter =
      Counter.fresh ((setRatesEndpoint s payload).1.config.TIME_WINDOW_SECONDS) ∧
    (∀ now, ((setRatesEndpoint s payload).1.file_mod_counter).count now = 0) ∧
    (∀ now, ((setRatesEndpoint s payload).1.rename_counter).count now = 0) ∧
    (setRatesEndpoint s payload).1.recent_modified_files = s.recent_modified_files ∧
    (setRatesEndpoint s payload).1.proc_writes = s.proc_writes ∧
    (setRatesEndpoint s payload).1.bytes_written_window = s.bytes_written_window := by
  cases hsr : (set_rates s.config payload).2 with
  | err m =>
    exfalso
    simp [setRatesEndpoint, hsr] at hok
  | ok u =>
    have hu : u = updated := by
      by_cases hany : u.any (fun kv => kv.1 == "TIME_WINDOW_SECONDS")
      · simpa [setRatesEndpoint, hsr, hany] using hok
      · simpa [setRatesEndpoint, hsr, hany] using hok
    subst hu
    have hany : u.any (fun kv => kv.1 == "TIME_WINDOW_SECONDS") = true := by
      rcases List.mem_map.mp hmem with ⟨kv, hkv, hfst⟩
      exact List.any_eq_true.mpr ⟨kv, hkv, by simp [hfst]⟩
    have hstate : (setRatesEndpoint s payload).1 =
        { s with
            config := (set_rates s.config payload).1
            file_mod_counter :=
              Counter.fresh ((set_rates s.config payload).1.TIME_WINDOW_SECONDS)
            rename_counter :=
              Counter.fresh ((set_rates s.config payload).1.TIME_WINDOW_SECONDS) } := by
      simp [setRatesEndpoint, hsr, hany]
    rw [hstate]
    refine ⟨rfl, rfl, ?_, ?_, rfl, rfl, rfl⟩
    · intro now
      rfl
    · intro now
      rfl

/-- Witness for claim C6: updating TIME_WINDOW_SECONDS to 60 on the initial
state resets both counters and touches nothing else. -/
theorem time_window_update_resets_counters_witness :
    ((setRatesEndpoint initAgentState [("TIME_WINDOW_SECONDS", JVal.jint 60)]).2 =
        .ok [("TIME_WINDOW_SECONDS", PyVal.pint 60)] ∧
      "TIME_WINDOW_SECONDS" ∈
        ([("TIME_WINDOW_SECONDS", PyVal.pint 60)]).map Prod.fst) ∧
    ((setRatesEndpoint initAgentState
        [("TIME_WINDOW_SECONDS", JVal.jint 60)]).1.file_mod_counter =
      Counter.fresh ((setRatesEndpoint initAgentState
        [("TIME_WINDOW_SECONDS", JVal.jint 60)]).1.config.TIME_WINDOW_SECONDS) ∧
      (setRatesEndpoint initAgentState
        [("TIME_WINDOW_SECONDS", JVal.jint 60)]).1.recent_modified_files =
        initAgentState.recent_modified_files) := by
  refine ⟨⟨by decide, by decide⟩, ?_, ?_⟩
  · exact (time_window_update_resets_counters initAgentState
      [("TIME_WINDOW_SECONDS", JVal.jint 60)] [("TIME_WINDOW_SECONDS", PyVal.pint 60)]
      (by decide) (by decide)).1
  · exact (time_window_update_resets_counters initAgentState
      [("TIME_WINDOW_SECONDS", JVal.jint 60)] [("TIME_WINDOW_SECONDS", PyVal.pint 60)]
      (by decide) (by decide)).2.2.2.2.1

/-- Claim C9, counterexample to the original wording: with the
files-modified threshold tuned to 0 (a value set_rates accepts), a window
count of 0 satisfies count at least threshold, yet the score is 0, not 1. -/
theorem file_rate_saturation_counterexample :
    (sampleStateThr0.config.FILES_MODIFIED_THRESHOLD : Int) ≤
      (sampleStateThr0.file_mod_counter.count 0 : Int) ∧
    detect_file_rate_score sampleStateThr0 0 ≠ 1 := by
  constructor
  · decide
  · have hscore : detect_file_rate_score sampleStateThr0 0 = 0 := by
      have hcnt : sampleStateThr0.file_mod_counter.count 0 = 0 := by decide
      have hthr : sampleStateThr0.config.FILES_MODIFIED_THRESHOLD = 0 := by decide
      rw [detect_file_rate_score, hcnt, hthr]
      norm_num
    rw [hscore]
    norm_num

/-- Claim C9 as amended - the file_rate score is monotonically
non-decreasing in the in-window count under a fixed configuration, and
saturates at exactly 1.0 once the count reaches max(1, threshold). -/
theorem file_rate_monotone_and_saturates :
    (∀ (s₁ s₂ : AgentState) (n₁ n₂ : Int), s₁.config = s₂.config →
      s₁.file_mod_counter.count n₁ ≤ s₂.file_mod_counter.count n₂ →
      detect_file_rate_score s₁ n₁ ≤ detect_file_rate_score s₂ n₂) ∧
    (∀ (s : AgentState) (n : Int),
      max 1 s.config.FILES_MODIFIED_THRESHOLD ≤ (s.file_mod_counter.count n : Int) →
      detect_file_rate_score s n = 1) := by
  constructor
  · intro s₁ s₂ n₁ n₂ hcfg hcnt
    unfold detect_file_rate_score
    rw [hcfg]
    have hd : (0 : ℚ) < max 1 (s₂.config.FILES_MODIFIED_THRESHOLD : ℚ) :=
      lt_of_lt_of_le zero_lt_one (le_max_left _ _)
    exact min_le_min le_rfl ((div_le_div_iff_of_pos_right hd).mpr (by exact_mod_cast hcnt))
  · intro s n hsat
    unfold detect_file_rate_score
    have hd : (0 : ℚ) < max 1 (s.config.FILES_MODIFIED_THRESHOLD : ℚ) :=
      lt_of_lt_of_le zero_lt_one (le_max_left _ _)
    have hsat' : max 1 (s.config.FILES_MODIFIED_THRESHOLD : ℚ) ≤
        (s.file_mod_counter.count n : ℚ) := by
      exact_mod_cast hsat
    have h1 : (1 : ℚ) ≤ (s.file_mod_counter.count n : ℚ) /
        max 1 (s.config.FILES_MODIFIED_THRESHOLD : ℚ) :=
      (one_le_div hd).mpr hsat'
    exact min_eq_left h1

/-- Witness for the amended claim C9: one event versus zero events is
monotone, and five events against the default threshold 5 saturate. -/
theorem file_rate_monotone_and_saturates_witness :
    ((initAgentState.config = sampleState1.config ∧
        initAgentState.file_mod_counter.count 0 ≤ sampleState1.file_mod_counter.count 0) ∧
      detect_file_rate_score initAgentState 0 ≤ detect_file_rate_score sampleState1 0) ∧
    ((max 1 sampleState5.config.FILES_MODIFIED_THRESHOLD ≤
        (sampleState5.file_mod_counter.count 0 : Int)) ∧
      detect_file_rate_score sampleState5 0 = 1) := by
  refine ⟨⟨⟨rfl, by decide⟩, ?_⟩, ⟨by decide, ?_⟩⟩
  · exact file_rate_monotone_and_saturates.1 initAgentState sampleState1 0 0
      rfl (by decide)
  · exact file_rate_monotone_and_saturates.2 sampleState5 0 (by decide)

/-- Claim C10 - the scheme bias in the URL classifier: an effective scheme
of http forces the MALICIOUS verdict and https forces BENIGN, for every
majority label the model produces; only other schemes fall through to the
model majority. -/
theorem scheme_bias_overrides_model (majority url : String) :
    (urlScheme (effectiveUrl url) = "http" →
      collect_samples_with_scheme_bias majority url = "MALICIOUS") ∧
    (urlScheme (effectiveUrl url) = "https" →
      collect_samples_with_scheme_bias majority url = "BENIGN") ∧
    (urlScheme (effectiveUrl url) ≠ "http" → urlScheme (effectiveUrl url) ≠ "https" →
      collect_samples_with_scheme_bias majority url = majority) := by
  refine ⟨?_, ?_, ?_⟩
  · intro h
    simp [collect_samples_with_scheme_bias, h]
  · intro h
    simp [collect_samples_with_scheme_bias, h]
  · intro h1 h2
    simp [collect_samples_with_scheme_bias, h1, h2]

/-- Witness for claim C10 at three concrete URLs, with a majority label
that disagrees with both forced verdicts. -/
theorem scheme_bias_overrides_model_witness :
    (urlScheme (effectiveUrl "http://a.com") = "http" ∧
      collect_samples_with_scheme_bias "BENIGN" "http://a.com" = "MALICIOUS") ∧
    (urlScheme (effectiveUrl "https://a.com") = "https" ∧
      collect_samples_with_scheme_bias "MALICIOUS" "https://a.com" = "BENIGN") ∧
    ((urlScheme (effectiveUrl "ftp://a.com") ≠ "http" ∧
        urlScheme (effectiveUrl "ftp://a.com") ≠ "https") ∧
      collect_samples_with_scheme_bias "MALICIOUS" "ftp://a.com" = "MALICIOUS") := by
  refine ⟨⟨by decide, ?_⟩, ⟨by decide, ?_⟩, ⟨⟨by decide, by decide⟩, ?_⟩⟩
  · exact (scheme_bias_overrides_model "BENIGN" "http://a.com").1 (by decide)
  · exact (scheme_bias_overrides_model "MALICIOUS" "https://a.com").2.1 (by decide)
  · exact (scheme_bias_overrides_model "MALICIOUS" "ftp://a.com").2.2
      (by decide) (by decide)

/-! ## Detector bound lemmas -/

theorem detect_file_rate_score_bounds (s : AgentState) (now : Int) :
    0 ≤ detect_file_rate_score s now ∧ detect_file_rate_score s now ≤ 1 := by
  simp only [detect_file_rate_score]
  have hd : (0 : ℚ) < max 1 (s.config.FILES_MODIFIED_THRESHOLD : ℚ) :=
    lt_of_lt_of_le zero_lt_one (le_max_left _ _)
  exact ⟨le_min zero_le_one (div_nonneg (Nat.cast_nonneg _) hd.le), min_le_left _ _⟩

theorem detect_bytes_written_score_bounds (s : AgentState)
    (hb : ∀ x ∈ s.bytes_written_window, (0 : Int) ≤ x.2) :
    0 ≤ detect_bytes_written_score s ∧ detect_bytes_written_score s ≤ 1 := by
  simp only [detect_bytes_written_score]
  have hd : (0 : ℚ) < max 1 (s.config.BYTES_WRITTEN_THRESHOLD : ℚ) :=
    lt_of_lt_of_le zero_lt_one (le_max_left _ _)
  have hsum : (0 : Int) ≤ (s.bytes_written_window.map (fun x => x.2)).sum := by
    apply List.sum_nonneg
    intro y hy
    rcases List.mem_map.mp hy with ⟨x, hx, rfl⟩
    exact hb x hx
  refine ⟨le_min zero_le_one (div_nonneg ?_ hd.le), min_le_left _ _⟩
  exact_mod_cast hsum

theorem detect_rename_score_bounds (s : AgentState) (now : Int) :
    0 ≤ detect_rename_score s now ∧ detect_rename_score s now ≤ 1 := by
  simp only [detect_rename_score]
  have hd : (0 : ℚ) < max 1 (s.config.RENAMES_THRESHOLD : ℚ) :=
    lt_of_lt_of_le zero_lt_one (le_max_left _ _)
  exact ⟨le_min zero_le_one (div_nonneg (Nat.cast_nonneg _) hd.le), min_le_left _ _⟩

theorem detect_ransom_note_score_bounds (s : AgentState) :
    0 ≤ detect_ransom_note_score s ∧ detect_ransom_note_score s ≤ 1 := by
  simp only [detect_ransom_note_score]
  split
  · norm_num
  · norm_num

theorem entropy_nonneg (data : List Nat) : 0 ≤ entropy data := by
  simp only [entropy]
  split
  · exact le_refl 0
  · apply List.sum_nonneg
    intro x hx
    rcases List.mem_map.mp hx with ⟨b, _, rfl⟩
    have hp0 : (0 : ℝ) ≤ (data.count b : ℝ) / (data.length : ℝ) :=
      div_nonneg (Nat.cast_nonneg _) (Nat.cast_nonneg _)
    have hp1 : (data.count b : ℝ) / (data.length : ℝ) ≤ 1 := by
      rcases Nat.eq_zero_or_pos data.length with h0 | hpos
      · simp [h0]
      · rw [div_le_one (by exact_mod_cast hpos)]
        exact_mod_cast List.count_le_length _ _
    have hlog : Real.logb 2 ((data.count b : ℝ) / (data.length : ℝ)) ≤ 0 :=
      Real.logb_nonpos one_lt_two hp0 hp1
    have h2 : 0 ≤ ((data.count b : ℝ) / (data.length : ℝ)) *
        (-(Real.logb 2 ((data.count b : ℝ) / (data.length : ℝ)))) :=
      mul_nonneg hp0 (neg_nonneg.mpr hlog)
    rw [mul_neg] at h2
    exact h2

theorem entropyScoreOf_bounds (thr : ℚ) (chunk : List Nat) :
    0 ≤ entropyScoreOf thr chunk ∧ entropyScoreOf thr chunk ≤ 1 := by
  simp only [entropyScoreOf]
  have hd : (0 : ℝ) < max 0.001 (thr : ℝ) :=
    lt_of_lt_of_le (by norm_num) (le_max_left _ _)
  exact ⟨le_min zero_le_one (div_nonneg (entropy_nonneg _) hd.le), min_le_left _ _⟩

theorem avg_unit_bounds (l : List ℝ) (h : ∀ x ∈ l, 0 ≤ x ∧ x ≤ 1) :
    0 ≤ (if l.length = 0 then (0 : ℝ) else l.sum / (l.length : ℝ)) ∧
      (if l.length = 0 then (0 : ℝ) else l.sum / (l.length : ℝ)) ≤ 1 := by
  by_cases h0 : l.length = 0
  · simp [h0]
  · have hpos : (0 : ℝ) < (l.length : ℝ) := by
      exact_mod_cast Nat.pos_of_ne_zero h0
    have hsum0 : 0 ≤ l.sum := List.sum_nonneg (fun x hx => (h x hx).1)
    have hsum1 : l.sum ≤ (l.length : ℝ) := by
      have := List.sum_le_card_nsmul l 1 (fun x hx => (h x hx).2)
      simpa using this
    simp only [h0, if_false]
    exact ⟨div_nonneg hsum0 hpos.le, by rw [div_le_one hpos]; exact hsum1⟩

theorem detect_entropy_score_bounds (s : AgentState) :
    0 ≤ detect_entropy_score s ∧ detect_entropy_score s ≤ 1 := by
  simp only [detect_entropy_score]
  apply avg_unit_bounds
  intro x hx
  rcases List.mem_filterMap.mp hx with ⟨p, _, hmap⟩
  rcases Option.map_eq_some'.mp hmap with ⟨chunk, _, rfl⟩
  exact entropyScoreOf_bounds _ _

theorem foldl_max_unit_bounds :
    ∀ (rest : List ℚ) (a : ℚ), 0 ≤ a → a ≤ 1 → (∀ x ∈ rest, 0 ≤ x ∧ x ≤ 1) →
      0 ≤ rest.foldl max a ∧ rest.foldl max a ≤ 1 := by
  intro rest
  induction rest with
  | nil => intro a h0 h1 _; exact ⟨h0, h1⟩
  | cons b bs ih =>
    intro a h0 h1 hall
    simp only [List.foldl_cons]
    exact ih (max a b) (le_trans h0 (le_max_left _ _))
      (max_le h1 (hall b (by simp)).2)
      (fun x hx => hall x (by simp [hx]))

theorem pyMaxOrZero_unit_bounds (l : List ℚ) (h : ∀ x ∈ l, 0 ≤ x ∧ x ≤ 1) :
    0 ≤ pyMaxOrZero l ∧ pyMaxOrZero l ≤ 1 := by
  cases l with
  | nil => simp [pyMaxOrZero]
  | cons a rest =>
    simp only [pyMaxOrZero]
    exact foldl_max_unit_bounds rest a (h a (by simp)).1 (h a (by simp)).2
      (fun x hx => h x (by simp [hx]))

theorem detect_proc_behavior_score_bounds (s : AgentState) :
    0 ≤ detect_proc_behavior_score s ∧ detect_proc_behavior_score s ≤ 1 := by
  simp only [detect_proc_behavior_score]
  apply pyMaxOrZero_unit_bounds
  intro x hx
  rcases List.mem_filterMap.mp hx with ⟨pd, _, heq⟩
  split_ifs at heq with h1 h2
  · have hx' : min 1
        ((((((pd.2.getLast?).map (fun x => x.2)).getD 0) -
          (((pd.2.head?).map (fun x => x.2)).getD 0) : Int) : ℚ) /
          max 1 ((s.config.BYTES_WRITTEN_THRESHOLD : ℚ) / 10)) = x :=
      Option.some.inj heq
    constructor
    · rw [← hx']
      have h0 : (0 : ℚ) < mkRat 1 10 := by decide
      exact le_of_lt (lt_trans h0 h2)
    · rw [← hx']
      exact min_le_left _ _

theorem detect_ml_score_bounds (s : AgentState) (now : Int) :
    0 ≤ detect_ml_score s now ∧ detect_ml_score s now ≤ 1 := by
  simp only [detect_ml_score]
  cases hm : s.ml_model with
  | none => norm_num
  | some f =>
    dsimp only
    split_ifs with hraw
    · constructor
      · exact le_min zero_le_one (div_nonneg (by linarith) (by norm_num))
      · exact min_le_left _ _
    · norm_num

theorem compute_confidence_bounds (s : AgentState) (now : Int)
    (hb : ∀ x ∈ s.bytes_written_window, (0 : Int) ≤ x.2) :
    0 ≤ (compute_confidence s now).1 ∧ (compute_confidence s now).1 ≤ 1 := by
  obtain ⟨ha0, ha1⟩ := detect_file_rate_score_bounds s now
  obtain ⟨hb0, hb1⟩ := detect_bytes_written_score_bounds s hb
  obtain ⟨hc0, hc1⟩ := detect_rename_score_bounds s now
  obtain ⟨hd0, hd1⟩ := detect_ransom_note_score_bounds s
  obtain ⟨he0, he1⟩ := detect_entropy_score_bounds s
  obtain ⟨hf0, hf1⟩ := detect_proc_behavior_score_bounds s
  obtain ⟨hg0, hg1⟩ := detect_ml_score_bounds s now
  have ha0' : (0 : ℝ) ≤ ((detect_file_rate_score s now : ℚ) : ℝ) := by exact_mod_cast ha0
  have ha1' : ((detect_file_rate_score s now : ℚ) : ℝ) ≤ 1 := by exact_mod_cast ha1
  have hb0' : (0 : ℝ) ≤ ((detect_bytes_written_score s : ℚ) : ℝ) := by exact_mod_cast hb0
  have hb1' : ((detect_bytes_written_score s : ℚ) : ℝ) ≤ 1 := by exact_mod_cast hb1
  have hc0' : (0 : ℝ) ≤ ((detect_rename_score s now : ℚ) : ℝ) := by exact_mod_cast hc0
  have hc1' : ((detect_rename_score s now : ℚ) : ℝ) ≤ 1 := by exact_mod_cast hc1
  have hd0' : (0 : ℝ) ≤ ((detect_ransom_note_score s : ℚ) : ℝ) := by exact_mod_cast hd0
  have hd1' : ((detect_ransom_note_score s : ℚ) : ℝ) ≤ 1 := by exact_mod_cast hd1
  have hf0' : (0 : ℝ) ≤ ((detect_proc_behavior_score s : ℚ) : ℝ) := by exact_mod_cast hf0
  have hf1' : ((detect_proc_behavior_score s : ℚ) : ℝ) ≤ 1 := by exact_mod_cast hf1
  have hg0' : (0 : ℝ) ≤ ((detect_ml_score s now : ℚ) : ℝ) := by exact_mod_cast hg0
  have hg1' : ((detect_ml_score s now : ℚ) : ℝ) ≤ 1 := by exact_mod_cast hg1
  simp only [compute_confidence]
  constructor
  · apply div_nonneg _ (by norm_num)
    have c1 : (0 : ℝ) ≤ 0.25 * ((detect_file_rate_score s now : ℚ) : ℝ) :=
      mul_nonneg (by norm_num) ha0'
    have c2 : (0 : ℝ) ≤ 0.20 * ((detect_bytes_written_score s : ℚ) : ℝ) :=
      mul_nonneg (by norm_num) hb0'
    have c3 : (0 : ℝ) ≤ 0.15 * ((detect_rename_score s now : ℚ) : ℝ) :=
      mul_nonneg (by norm_num) hc0'
    have c4 : (0 : ℝ) ≤ 0.20 * ((detect_ransom_note_score s : ℚ) : ℝ) :=
      mul_nonneg (by norm_num) hd0'
    have c5 : (0 : ℝ) ≤ 0.2 * detect_entropy_score s :=
      mul_nonneg (by norm_num) he0
    have c6 : (0 : ℝ) ≤ 0.25 * ((detect_proc_behavior_score s : ℚ) : ℝ) :=
      mul_nonneg (by norm_num) hf0'
    have c7 : (0 : ℝ) ≤ 0.15 * ((detect_ml_score s now : ℚ) : ℝ) :=
      mul_nonneg (by norm_num) hg0'
    linarith
  · rw [div_le_one (by norm_num)]
    have d1 : 0.25 * ((detect_file_rate_score s now : ℚ) : ℝ) ≤ 0.25 :=
      mul_le_of_le_one_right (by norm_num) ha1'
    have d2 : 0.20 * ((detect_bytes_written_score s : ℚ) : ℝ) ≤ 0.20 :=
      mul_le_of_le_one_right (by norm_num) hb1'
    have d3 : 0.15 * ((detect_rename_score s now : ℚ) : ℝ) ≤ 0.15 :=
      mul_le_of_le_one_right (by norm_num) hc1'
    have d4 : 0.20 * ((detect_ransom_note_score s : ℚ) : ℝ) ≤ 0.20 :=
      mul_le_of_le_one_right (by norm_num) hd1'
    have d5 : 0.2 * detect_entropy_score s ≤ 0.2 :=
      mul_le_of_le_one_right (by norm_num) he1
    have d6 : 0.25 * ((detect_proc_behavior_score s : ℚ) : ℝ) ≤ 0.25 :=
      mul_le_of_le_one_right (by norm_num) hf1'
    have d7 : 0.15 * ((detect_ml_score s now : ℚ) : ℝ) ≤ 0.15 :=
      mul_le_of_le_one_right (by norm_num) hg1'
    linarith

/-- Claim C4 - every one of the seven detectors stays inside the unit
interval for every state whose byte samples are non-negative (as the event
ingestion guarantees), and so does the normalized fused confidence. -/
theorem detectors_and_confidence_unit_interval (s : AgentState) (now : Int)
    (hb : ∀ x ∈ s.bytes_written_window, (0 : Int) ≤ x.2) :
    (0 ≤ detect_file_rate_score s now ∧ detect_file_rate_score s now ≤ 1) ∧
    (0 ≤ detect_bytes_written_score s ∧ detect_bytes_written_score s ≤ 1) ∧
    (0 ≤ detect_rename_score s now ∧ detect_rename_score s now ≤ 1) ∧
    (0 ≤ detect_ransom_note_score s ∧ detect_ransom_note_score s ≤ 1) ∧
    (0 ≤ detect_entropy_score s ∧ detect_entropy_score s ≤ 1) ∧
    (0 ≤ detect_proc_behavior_score s ∧ detect_proc_behavior_score s ≤ 1) ∧
    (0 ≤ detect_ml_score s now ∧ detect_ml_score s now ≤ 1) ∧
    (0 ≤ (compute_confidence s now).1 ∧ (compute_confidence s now).1 ≤ 1) :=
  ⟨detect_file_rate_score_bounds s now, detect_bytes_written_score_bounds s hb,
   detect_rename_score_bounds s now, detect_ransom_note_score_bounds s,
   detect_entropy_score_bounds s, detect_proc_behavior_score_bounds s,
   detect_ml_score_bounds s now, compute_confidence_bounds s now hb⟩

/-- Witness for claim C4 at the initial state, whose byte-sample window is
empty. -/
theorem detectors_and_confidence_unit_interval_witness :
    (∀ x ∈ initAgentState.bytes_written_window, (0 : Int) ≤ x.2) ∧
    ((0 ≤ detect_file_rate_score initAgentState 0 ∧
        detect_file_rate_score initAgentState 0 ≤ 1) ∧
     (0 ≤ detect_bytes_written_score initAgentState ∧
        detect_bytes_written_score initAgentState ≤ 1) ∧
     (0 ≤ detect_rename_score initAgentState 0 ∧
        detect_rename_score initAgentState 0 ≤ 1) ∧
     (0 ≤ detect_ransom_note_score initAgentState ∧
        detect_ransom_note_score initAgentState ≤ 1) ∧
     (0 ≤ detect_entropy_score initAgentState ∧
        detect_entropy_score initAgentState ≤ 1) ∧
     (0 ≤ detect_proc_behavior_score initAgentState ∧
        detect_proc_behavior_score initAgentState ≤ 1) ∧
     (0 ≤ detect_ml_score initAgentState 0 ∧ detect_ml_score initAgentState 0 ≤ 1) ∧
     (0 ≤ (compute_confidence initAgentState 0).1 ∧
        (compute_confidence initAgentState 0).1 ≤ 1)) :=
  ⟨by decide, detectors_and_confidence_unit_interval initAgentState 0 (by decide)⟩

/-! ## Action-cycle lemmas -/

/-- snapshot_and_alert only writes to the observed filesystem: config,
counters, the recent-file log, the byte window and the process history all
pass through unchanged. -/
theorem snapshot_and_alert_frame (env : Env) (s : AgentState) (conf : ℝ)
    (dets : DetectorScores) :
    (snapshot_and_alert env s conf dets).1.config = s.config ∧
    (snapshot_and_alert env s conf dets).1.file_mod_counter = s.file_mod_counter ∧
    (snapshot_and_alert env s conf dets).1.rename_counter = s.rename_counter ∧
    (snapshot_and_alert env s conf dets).1.recent_modified_files =
      s.recent_modified_files ∧
    (snapshot_and_alert env s conf dets).1.bytes_written_window =
      s.bytes_written_window ∧
    (snapshot_and_alert env s conf dets).1.proc_writes = s.proc_writes :=
  ⟨rfl, rfl, rfl, rfl, rfl, rfl⟩

/-- The fused confidence of the pristine initial state is zero: every
detector reads empty aggregates. -/
theorem compute_confidence_init (now : Int) :
    (compute_confidence initAgentState now).1 = 0 := by
  have h1 : detect_file_rate_score initAgentState now = 0 := by
    norm_num [detect_file_rate_score, initAgentState, Counter.count, Counter.prune,
      Counter.fresh, min_def, max_def]
  have h2 : detect_bytes_written_score initAgentState = 0 := by
    norm_num [detect_bytes_written_score, initAgentState, min_def, max_def]
  have h3 : detect_rename_score initAgentState now = 0 := by
    norm_num [detect_rename_score, initAgentState, Counter.count, Counter.prune,
      Counter.fresh, min_def, max_def]
  have h4 : detect_ransom_note_score initAgentState = 0 := by
    norm_num [detect_ransom_note_score, initAgentState]
  have h5 : detect_entropy_score initAgentState = 0 := by
    norm_num [detect_entropy_score, initAgentState]
  have h6 : detect_proc_behavior_score initAgentState = 0 := by
    norm_num [detect_proc_behavior_score, initAgentState, pyMaxOrZero]
  have h7 : detect_ml_score initAgentState now = 0 := by
    norm_num [detect_ml_score, initAgentState]
  simp only [compute_confidence, h1, h2, h3, h4, h5, h6, h7]
  norm_num

/-- Claim C7 - in one evaluation cycle: confidence at or above the action
threshold produces exactly one Alert, clears RecentFileLog afterwards and
clears no sliding-window counter; confidence below the action threshold
(warn band included) produces no Alert and leaves the whole state, the
recent-file log included, unchanged. -/
theorem action_cycle_alert_and_frame (env : Env) (s : AgentState) :
    (((s.config.CONFIDENCE_ACTION_THRESHOLD : ℚ) : ℝ) ≤
        (compute_confidence s env.now).1 →
      (∃ a, (agent_cycle env s).2 = some a) ∧
      (agent_cycle env s).1.recent_modified_files = [] ∧
      (agent_cycle env s).1.file_mod_counter = s.file_mod_counter ∧
      (agent_cycle env s).1.rename_counter = s.rename_counter ∧
      (agent_cycle env s).1.config = s.config) ∧
    ((compute_confidence s env.now).1 <
        ((s.config.CONFIDENCE_ACTION_THRESHOLD : ℚ) : ℝ) →
      (agent_cycle env s).2 = none ∧ (agent_cycle env s).1 = s) := by
  constructor
  · intro h
    have hcycle : agent_cycle env s =
        ({ (snapshot_and_alert env s (compute_confidence s env.now).1
              (compute_confidence s env.now).2).1 with recent_modified_files := [] },
         some (snapshot_and_alert env s (compute_confidence s env.now).1
              (compute_confidence s env.now).2).2) := by
      simp only [agent_cycle]
      rw [if_pos h]
    refine ⟨⟨_, by rw [hcycle]⟩, by rw [hcycle], ?_, ?_, ?_⟩
    · rw [hcycle]
      exact (snapshot_and_alert_frame env s (compute_confidence s env.now).1
        (compute_confidence s env.now).2).2.1
    · rw [hcycle]
      exact (snapshot_and_alert_frame env s (compute_confidence s env.now).1
        (compute_confidence s env.now).2).2.2.1
    · rw [hcycle]
      exact (snapshot_and_alert_frame env s (compute_confidence s env.now).1
        (compute_confidence s env.now).2).1
  · intro h
    have hcycle : agent_cycle env s = (s, none) := by
      simp only [agent_cycle]
      rw [if_neg (not_le.mpr h)]
    exact ⟨by rw [hcycle], by rw [hcycle]⟩

/-- Witness for claim C7: with the action threshold tuned to 0 the cycle
fires and clears the recent-file log; at the pristine default state the
confidence 0 sits below the default action threshold 0.05 and the cycle
changes nothing. -/
theorem action_cycle_alert_and_frame_witness :
    (((sampleActState.config.CONFIDENCE_ACTION_THRESHOLD : ℚ) : ℝ) ≤
        (compute_confidence sampleActState sampleEnv.now).1 ∧
      (∃ a, (agent_cycle sampleEnv sampleActState).2 = some a) ∧
      (agent_cycle sampleEnv sampleActState).1.recent_modified_files = []) ∧
    ((compute_confidence initAgentState sampleEnv.now).1 <
        ((initAgentState.config.CONFIDENCE_ACTION_THRESHOLD : ℚ) : ℝ) ∧
      (agent_cycle sampleEnv initAgentState).2 = none ∧
      (agent_cycle sampleEnv initAgentState).1 = initAgentState) := by
  have hyp1 : (((sampleActState.config.CONFIDENCE_ACTION_THRESHOLD : ℚ) : ℝ) ≤
      (compute_confidence sampleActState sampleEnv.now).1) := by
    have h := (compute_confidence_bounds sampleActState sampleEnv.now (by decide)).1
    simpa [sampleActState] using h
  have hyp2 : ((compute_confidence initAgentState sampleEnv.now).1 <
      ((initAgentState.config.CONFIDENCE_ACTION_THRESHOLD : ℚ) : ℝ)) := by
    rw [compute_confidence_init]
    have h0 : (0 : ℚ) < initAgentState.config.CONFIDENCE_ACTION_THRESHOLD := by decide
    exact_mod_cast h0
  constructor
  · refine ⟨hyp1, ?_, ?_⟩
    · exact ((action_cycle_alert_and_frame sampleEnv sampleActState).1 hyp1).1
    · exact ((action_cycle_alert_and_frame sampleEnv sampleActState).1 hyp1).2.1
  · refine ⟨hyp2, ?_, ?_⟩
    · exact ((action_cycle_alert_and_frame sampleEnv initAgentState).2 hyp2).1
    · exact ((action_cycle_alert_and_frame sampleEnv initAgentState).2 hyp2).2

/-! ## Snapshot artifact identifiers (claim C1) -/

/-- Claim C1, evidence of the defect at a concrete trigger: one file is
logged and readable, the encrypted artifact is persisted as nonce plus
ciphertext under a name embedding the filename and the timestamp, yet the
snapshots field of the Alert is the literal string None, because
encrypt_and_store ends without a return statement and the caller stores
str(None) per successful snapshot. -/
theorem snapshot_alert_records_none_strings :
    ((snapshot_and_alert sampleEnv sampleTriggerState 0 sampleDets).2).snapshots =
      ["None"] ∧
    fsRead ((snapshot_and_alert sampleEnv sampleTriggerState 0 sampleDets).1).sandbox_fs
      "demo_backups/a.txt.20250101T000000.enc" = some ([7] ++ [1, 2, 3]) := by
  constructor
  · rfl
  · rfl

/-! ## Entropy detector sampling (claim C8) -/

theorem entropy_pair : entropy [0, 1] = 1 := by
  have hlog : Real.logb 2 ((1 : ℝ) / 2) = -1 := by
    rw [show (1 : ℝ) / 2 = 2⁻¹ by norm_num, Real.logb_inv,
      Real.logb_self_eq_one one_lt_two]
  have hd : ([0, 1] : List Nat).dedup = [0, 1] := by decide
  have hc0 : List.count 0 [0, 1] = 1 := by decide
  have hc1 : List.count 1 [0, 1] = 1 := by decide
  simp only [entropy, hd, List.map_cons, List.map_nil, List.sum_cons, List.sum_nil]
  rw [if_neg (by decide : ¬(([0, 1] : List Nat).isEmpty = true))]
  rw [hc0, hc1]
  norm_num [hlog]

/-- Claim C8, counterexample to the original wording: with six logged files
of which only the newest exists (holding one bit of entropy), the detector
returns 0.0 because it samples the five oldest retained entries, while the
claimed sampling of the five most-recent entries would score one half. -/
theorem entropy_sampling_counterexample :
    detect_entropy_score sampleSixFiles = 0 ∧
    detect_entropy_score_most_recent sampleSixFiles = 1 / 2 ∧
    detect_entropy_score sampleSixFiles ≠
      detect_entropy_score_most_recent sampleSixFiles := by
  have hcode : detect_entropy_score sampleSixFiles = 0 := rfl
  have hlist : (sampleSixFiles.recent_modified_files.reverse.take 5).filterMap
      (fun p => (readChunk sampleSixFiles.sandbox_fs p).map
        (entropyScoreOf sampleSixFiles.config.ENTROPY_THRESHOLD)) =
      [entropyScoreOf 2 [0, 1]] := rfl
  have hspec : detect_entropy_score_most_recent sampleSixFiles = 1 / 2 := by
    simp only [detect_entropy_score_most_recent, hlist]
    have hval : entropyScoreOf 2 [0, 1] = 1 / 2 := by
      simp only [entropyScoreOf, entropy_pair]
      norm_num [max_def, min_def]
    rw [hval]
    norm_num
  refine ⟨hcode, hspec, ?_⟩
  rw [hcode, hspec]
  norm_num

/-- Claim C8 as amended - the entropy detector reads the first five entries
of RecentFileLog (the oldest retained), keeps the successfully read
4096-byte chunks, scores each by min(1, entropy / max(0.001, threshold))
and averages over them, returning 0.0 when no chunk could be read. -/
theorem entropy_detector_amended (s : AgentState) :
    detect_entropy_score s = detect_entropy_score_spec s := by
  simp only [detect_entropy_score, detect_entropy_score_spec]
  rw [← List.map_filterMap]
  simp only [List.length_map]
  by_cases h : (s.recent_modified_files.take 5).filterMap (readChunk s.sandbox_fs) = []
  · simp [h]
  · rw [if_neg (fun hl => h (List.length_eq_zero.mp hl)), if_neg h]

end CrisisGuard
